import Mathlib

/-!
Verification development for `nemo/collections/asr/modules/audio_preprocessing.py`.

The Python module is shallowly embedded below.  Machine floats become exact
rationals (all concrete computations settled here agree with the float
results), tensors of lengths become lists of naturals or rationals, batched
spectrogram tensors become functions from (batch, channel, time) indices to
rationals, and Python exceptions become `Except` values.  Parts of the
repository that the module calls but whose source is not available
(`FilterbankFeatures`, `SpecAugment`, `SpecCutout`) are modelled from the
specification; each such definition carries a doc comment saying so.
-/

namespace NeMoAudio

/-- Python truthiness of an optional float argument: `None` and `0` are falsy. -/
def truthyQ : Option ℚ → Bool
  | none => false
  | some x => decide (x ≠ 0)

/-- Python truthiness of an optional int argument: `None` and `0` are falsy. -/
def truthyZ : Option ℤ → Bool
  | none => false
  | some x => decide (x ≠ 0)

/-- Python `int(...)` applied to a real number: truncation toward zero. -/
def pyInt (q : ℚ) : ℤ :=
  if 0 ≤ q then ⌊q⌋ else -⌊-q⌋

/-! ## `AudioPreprocessor` (base class)

Source lines 29-64.  The constructor stores `win_length` and `hop_length` and
builds the window table; `forward` computes the features (abstract method,
implemented by subclasses) and the output lengths; `get_seq_len` computes
`torch.ceil(length / self.hop_length).to(dtype=torch.long)`.
-/

/-- One entry of `AudioPreprocessor.get_seq_len`: `ceil(length / hop_length)`,
converted to an integer.  The division is exact rational (real) division, as in
the source, where `length` has been converted to float before the division. -/
def seq_len_one (hop_length : ℚ) (length : ℚ) : ℤ :=
  ⌈length / hop_length⌉

/-- Embedding of `AudioPreprocessor.get_seq_len` (source lines 61-63), applied to a batch of
(already float-converted) lengths. -/
def get_seq_len (hop_length : ℚ) (length : List ℚ) : List ℤ :=
  length.map (seq_len_one hop_length)

/-- Embedding of `AudioPreprocessor.forward` (source lines 49-54): returns the features
computed by the subclass hook `get_features` together with
`get_seq_len(length.float())`.  The integer length vector is cast to rationals
(the float conversion) before the ceiling division. -/
def AudioPreprocessor.forward {Feat : Type} (hop_length : ℚ)
    (get_features : List (List ℚ) → List ℕ → Feat)
    (input_signal : List (List ℚ)) (length : List ℕ) : Feat × List ℤ :=
  (get_features input_signal length,
   get_seq_len hop_length (length.map (fun (l : ℕ) => (l : ℚ))))

/-! ## `AudioToMelSpectrogramPreprocessor` constructor

Source lines 159-218.  Only the argument checking and the duration-to-sample
conversion live in this file; the featurizer it builds is
`FilterbankFeatures`, whose source is elsewhere.
-/

/-- Default value of the `window_size` constructor argument (`0.02` seconds). -/
def default_window_size : Option ℚ := some (2 / 100)

/-- Default value of the `window_stride` constructor argument (`0.01` seconds). -/
def default_window_stride : Option ℚ := some (1 / 100)

/-- Default value of the `sample_rate` constructor argument. -/
def default_sample_rate : ℕ := 16000

/-- The state of a constructed `AudioToMelSpectrogramPreprocessor` that the
claims refer to: the attributes set by `super().__init__` (which receives the
raw `n_window_size` / `n_window_stride` arguments, before any conversion) and
the window size and stride in samples that are passed on to
`FilterbankFeatures`. -/
structure AudioToMelSpectrogramPreprocessor where
  sample_rate : ℕ
  win_length : Option ℤ
  hop_length : Option ℤ
  feat_n_window_size : Option ℤ
  feat_n_window_stride : Option ℤ
deriving DecidableEq, Repr

/-- Embedding of `AudioToMelSpectrogramPreprocessor.__init__` (source lines 159-218),
restricted to the five arguments the claims are about.  Mirrors the source:
first the two both-given checks (Python truthiness), then the duration-to-
sample conversions `n_window_size = int(window_size * sample_rate)` and
`n_window_stride = int(window_stride * sample_rate)`, each performed only when
the duration argument is truthy. -/
def audioToMelInit (sample_rate : ℕ) (window_size window_stride : Option ℚ)
    (n_window_size n_window_stride : Option ℤ) :
    Except String AudioToMelSpectrogramPreprocessor :=
  if truthyQ window_size && truthyZ n_window_size then
    Except.error "received both window_size and n_window_size. Only one should be specified."
  else if truthyQ window_stride && truthyZ n_window_stride then
    Except.error "received both window_stride and n_window_stride. Only one should be specified."
  else
    Except.ok
      { sample_rate := sample_rate
        win_length := n_window_size
        hop_length := n_window_stride
        feat_n_window_size :=
          if truthyQ window_size then some (pyInt ((window_size.getD 0) * sample_rate))
          else n_window_size
        feat_n_window_stride :=
          if truthyQ window_stride then some (pyInt ((window_stride.getD 0) * sample_rate))
          else n_window_stride }

/-- Modelled from the spec: `FilterbankFeatures.get_seq_len` is not under
`src/`; spec section 4.7 gives the pure function
`output_length = ceil(length / hop_length)` computed on a real-valued length,
which is what `AudioToMelSpectrogramPreprocessor.get_seq_len` delegates to. -/
def filterbank_get_seq_len (hop_length : ℤ) (seq_len : ℚ) : ℤ :=
  ⌈seq_len / (hop_length : ℚ)⌉

/-- Embedding of `AudioToMelSpectrogramPreprocessor.get_seq_len` (source lines 224-225):
delegates to the featurizer, whose hop length is the converted
`n_window_stride`. -/
def AudioToMelSpectrogramPreprocessor.get_seq_len
    (p : AudioToMelSpectrogramPreprocessor) (seq_len : ℚ) : ℤ :=
  filterbank_get_seq_len (p.feat_n_window_stride.getD 0) seq_len

/-! ## The window table (`AudioPreprocessor.torch_windows`, source lines 40-47)

The dictionary maps window names to the torch window generators.  The
generators themselves are library functions; their standard analytic formulas
(torch default `periodic=True`) are written out below over the reals. -/

/-- Standard periodic Hann window of length `L`:
`w[n] = 1/2 * (1 - cos(2*pi*n/L))`. -/
noncomputable def hann_window (L : ℕ) : List ℝ :=
  (List.range L).map (fun (n : ℕ) => 1 / 2 * (1 - Real.cos (2 * Real.pi * n / L)))

/-- Standard periodic Hamming window of length `L`:
`w[n] = 0.54 - 0.46 * cos(2*pi*n/L)`. -/
noncomputable def hamming_window (L : ℕ) : List ℝ :=
  (List.range L).map (fun (n : ℕ) => 54 / 100 - 46 / 100 * Real.cos (2 * Real.pi * n / L))

/-- Standard periodic Blackman window of length `L`:
`w[n] = 0.42 - 0.5 * cos(2*pi*n/L) + 0.08 * cos(4*pi*n/L)`. -/
noncomputable def blackman_window (L : ℕ) : List ℝ :=
  (List.range L).map
    (fun (n : ℕ) => 42 / 100 - 1 / 2 * Real.cos (2 * Real.pi * n / L)
      + 8 / 100 * Real.cos (4 * Real.pi * n / L))

/-- Standard periodic Bartlett (triangular) window of length `L`:
`w[n] = 1 - |2*n/L - 1|`. -/
noncomputable def bartlett_window (L : ℕ) : List ℝ :=
  (List.range L).map (fun (n : ℕ) => 1 - |2 * (n : ℝ) / L - 1|)

/-- Embedding of `torch.ones`: the all-ones vector of the requested length. -/
def ones_window (L : ℕ) : List ℝ :=
  List.replicate L 1

/-- Embedding of `AudioPreprocessor.torch_windows` (source lines 40-47): dictionary lookup
from the optional window name to a window generator.  Keys are the five names
`hann`, `hamming`, `blackman`, `bartlett`, `ones` and the Python `None` key,
which maps to `torch.ones`; any other name misses the dictionary. -/
noncomputable def torch_windows : Option String → Option (ℕ → List ℝ)
  | none => some ones_window
  | some s =>
    if s = "hann" then some hann_window
    else if s = "hamming" then some hamming_window
    else if s = "blackman" then some blackman_window
    else if s = "bartlett" then some bartlett_window
    else if s = "ones" then some ones_window
    else none

/-- Modelled from the spec: the `FilterbankFeatures` constructor is not under
`src/`; per spec sections 4.1 and 7 it resolves the window name against the
window table at construction time and raises a configuration error for an
unknown name, so that window lookup can never fail at call time. -/
noncomputable def window_check (name : Option String) : Except String (ℕ → List ℝ) :=
  match torch_windows name with
  | some g => Except.ok g
  | none => Except.error "unknown window name"

/-! ## `SpectrogramAugmentation` (source lines 232-309)

The spectrogram is embedded as a total function from (batch, channel, time)
indices to rationals.  `SpecCutout` and `SpecAugment` (the two maskers built by
the constructor) live outside `src/` and are modelled from spec sections 4.8
and 4.9: each draws a set of axis-aligned regions from the RNG and zeroes
them.  The RNG is an explicit stream of naturals; a uniform draw on `[0, m]`
reads one stream element modulo `m + 1`. -/

/-- A batched spectrogram: batch index, channel (frequency) index, time index. -/
def Tensor : Type := ℕ → ℕ → ℕ → ℚ

/-- Zero every element whose index satisfies the mask predicate, leave the
rest unchanged. -/
def applyMask (P : ℕ → ℕ → ℕ → Bool) (x : Tensor) : Tensor :=
  fun b f t => if P b f t then 0 else x b f t

/-- An axis-aligned rectangular zeroing region of one batch item: channels
`[f0, f0 + fw)` times frames `[t0, t0 + tw)`.  Frequency and time bands are
the special cases spanning the full extent of the other axis. -/
structure Rect where
  b : ℕ
  f0 : ℕ
  fw : ℕ
  t0 : ℕ
  tw : ℕ
deriving DecidableEq, Repr

/-- Whether the rectangle covers the index `(b, f, t)`. -/
def Rect.covers (r : Rect) (b f t : ℕ) : Bool :=
  b == r.b && decide (r.f0 ≤ f) && decide (f < r.f0 + r.fw)
    && decide (r.t0 ≤ t) && decide (t < r.t0 + r.tw)

/-- A uniform draw on `[0, m]` from position `i` of the RNG stream. -/
def unif (rng : ℕ → ℕ) (i m : ℕ) : ℕ :=
  rng i % (m + 1)

/-- Modelled from the spec: `SpecCutout` mask drawing (spec section 4.9; the
source of `SpecCutout` is not under `src/`).  For each of the `B` batch items,
`rect_masks` independent rectangles are drawn: height uniform on
`[0, rect_freq]`, width uniform on `[0, rect_time]`, and a top-left position
uniform among those for which the rectangle fits inside the `C` channels and
`T` frames. -/
def specCutoutRects (B C T rect_masks rect_freq rect_time : ℕ)
    (rng : ℕ → ℕ) : List Rect :=
  (List.range B).flatMap (fun b =>
    (List.range rect_masks).map (fun j =>
      let base := (b * rect_masks + j) * 4
      let h := unif rng base rect_freq
      let w := unif rng (base + 1) rect_time
      { b := b
        f0 := unif rng (base + 2) (C - h)
        fw := h
        t0 := unif rng (base + 3) (T - w)
        tw := w }))

/-- Modelled from the spec: the `SpecCutout` masker (spec section 4.9) zeroes
exactly the drawn rectangles. -/
def specCutoutFn (B C T rect_masks rect_freq rect_time : ℕ)
    (rng : ℕ → ℕ) : Tensor → Tensor :=
  applyMask (fun b f t =>
    (specCutoutRects B C T rect_masks rect_freq rect_time rng).any
      (fun r => r.covers b f t))

/-- Modelled from the spec: `SpecAugment` mask drawing (spec section 4.8; the
source of `SpecAugment` is not under `src/`).  For each batch item,
`freq_masks` frequency bands (width uniform on `[0, freq_width]`, start
uniform so the band fits among the `C` channels, spanning all `T` frames) and
`time_masks` time bands (symmetrically) are drawn. -/
def specAugmentRects (B C T freq_masks time_masks freq_width time_width : ℕ)
    (rng : ℕ → ℕ) : List Rect :=
  ((List.range B).flatMap (fun b =>
    (List.range freq_masks).map (fun j =>
      let base := (b * freq_masks + j) * 2
      let w := unif rng base freq_width
      { b := b, f0 := unif rng (base + 1) (C - w), fw := w, t0 := 0, tw := T })))
  ++ ((List.range B).flatMap (fun b =>
    (List.range time_masks).map (fun j =>
      let base := B * freq_masks * 2 + (b * time_masks + j) * 2
      let w := unif rng base time_width
      { b := b, f0 := 0, fw := C, t0 := unif rng (base + 1) (T - w), tw := w })))

/-- Modelled from the spec: the `SpecAugment` masker (spec section 4.8) zeroes
exactly the drawn frequency and time bands. -/
def specAugmentFn (B C T freq_masks time_masks freq_width time_width : ℕ)
    (rng : ℕ → ℕ) : Tensor → Tensor :=
  applyMask (fun b f t =>
    (specAugmentRects B C T freq_masks time_masks freq_width time_width rng).any
      (fun r => r.covers b f t))

/-- The two stage functions a `SpectrogramAugmentation` object holds after
construction. -/
structure SpectrogramAugmentation where
  spec_cutout : Tensor → Tensor
  spec_augment : Tensor → Tensor

/-- Embedding of `SpectrogramAugmentation.__init__` (source lines 283-303): builds
`SpecCutout` when `rect_masks > 0` and the identity lambda otherwise, and
`SpecAugment` when `freq_masks + time_masks > 0` and the identity lambda
otherwise.  `B`, `C`, `T` are the tensor extents the maskers draw positions
against; `rng` is the explicit random stream shared by both maskers. -/
def spectrogramAugmentationInit
    (B C T freq_masks time_masks freq_width time_width rect_masks
      rect_time rect_freq : ℕ) (rng : ℕ → ℕ) : SpectrogramAugmentation :=
  { spec_cutout :=
      if rect_masks > 0 then specCutoutFn B C T rect_masks rect_freq rect_time rng
      else fun x => x
    spec_augment :=
      if freq_masks + time_masks > 0 then
        specAugmentFn B C T freq_masks time_masks freq_width time_width rng
      else fun x => x }

/-- Embedding of `SpectrogramAugmentation.forward` (source lines 305-309): cutout first,
then band masking. -/
def SpectrogramAugmentation.forward (s : SpectrogramAugmentation)
    (input_spec : Tensor) : Tensor :=
  s.spec_augment (s.spec_cutout input_spec)

/-! ## Feature extraction model for the determinism claim

`AudioToMelSpectrogramPreprocessor.get_features` delegates to
`FilterbankFeatures`, whose source is not under `src/`.  Its two stochastic or
optional leading steps (dithering, pre-emphasis) are modelled from spec
section 4.2 with an explicit noise stream; every later step (framing,
windowing, FFT, mel projection, log, normalization, padding) is a
deterministic function of the processed signal and is abstracted by the
`spectral` argument. -/

/-- Modelled from the spec: dithering (spec 4.2 step 1; `FilterbankFeatures`
is not under `src/`).  When `dither > 0`, add `dither * noise[i]` to sample
`i`, the noise stream standing for the Gaussian draws; otherwise the signal
is unchanged. -/
def dither_signal (dither : ℚ) (noise : ℕ → ℚ) (signal : List ℚ) : List ℚ :=
  if 0 < dither then signal.mapIdx (fun i s => s + dither * noise i) else signal

/-- Modelled from the spec: pre-emphasis (spec 4.2 step 2; `FilterbankFeatures`
is not under `src/`).  When a coefficient `p` is set, sample `t` becomes
`x[t] - p * x[t-1]` with `x[0]` unchanged. -/
def preemphasis (preemph : Option ℚ) (signal : List ℚ) : List ℚ :=
  match preemph with
  | none => signal
  | some p => signal.zipWith (fun cur prev => cur - p * prev) (0 :: signal)

/-- Modelled from the spec: the `get_features` hook of
`AudioToMelSpectrogramPreprocessor` (spec 4.2-4.6).  Each item of the batch is
dithered from the explicit noise stream, pre-emphasized, and passed through
the deterministic remainder of the pipeline `spectral`. -/
def get_features_model (spectral : List ℚ → List (List ℚ)) (dither : ℚ)
    (preemph : Option ℚ) (noise : ℕ → ℚ)
    (input_signal : List (List ℚ)) (_length : List ℕ) : List (List (List ℚ)) :=
  input_signal.map (fun s => spectral (preemphasis preemph (dither_signal dither noise s)))

/-! ## Theorems -/

/-- Ceiling of an exact rational division of naturals, as a natural ceiling
division. -/
lemma ceil_natCast_div (l h : ℕ) (hh : 0 < h) :
    ⌈(l : ℚ) / (h : ℚ)⌉ = (((l + h - 1) / h : ℕ) : ℤ) := by
  have hq : (0 : ℚ) < (h : ℚ) := by exact_mod_cast hh
  cases l with
  | zero =>
      have : (h - 1) / h = 0 := Nat.div_eq_of_lt (Nat.sub_lt hh Nat.one_pos)
      simp [this]
  | succ m =>
      have hdiv : (m + 1 + h - 1) / h = m / h + 1 := by
        have : m + 1 + h - 1 = m + h := by omega
        rw [this, Nat.add_div_right _ hh]
      rw [hdiv]
      apply le_antisymm
      · rw [Int.ceil_le, div_le_iff₀ hq]
        have hn : m + 1 ≤ (m / h + 1) * h := by
          have := Nat.lt_div_mul_add (a := m) hh
          calc m + 1 ≤ m / h * h + h := this
            _ = (m / h + 1) * h := by ring
        push_cast
        exact_mod_cast hn
      · have hn : (m / h) * h < m + 1 := Nat.lt_succ_of_le (Nat.div_mul_le_self m h)
        generalize m / h = k at hn ⊢
        have hq2 : ((k : ℚ)) * h < (m : ℚ) + 1 := by exact_mod_cast hn
        rw [Int.le_ceil_iff, lt_div_iff₀ hq]
        push_cast
        linarith

/-- Claim C1: for every batch of lengths and every positive `hop_length`, the
length component of `AudioPreprocessor.forward` is
`output_length[i] = ceil(length[i] / hop_length)` where the length is cast to
a real value before the division (the first equality, exact rational ceiling
division), and the integer result agrees with the natural ceiling division
`(l + hop - 1) / hop` (the second equality). -/
theorem claim_c1 {Feat : Type} (get_features : List (List ℚ) → List ℕ → Feat)
    (input_signal : List (List ℚ)) (hop_length : ℕ) (hpos : 0 < hop_length)
    (length : List ℕ) :
    (AudioPreprocessor.forward ((hop_length : ℕ) : ℚ) get_features input_signal length).2
        = length.map (fun l => ⌈((l : ℕ) : ℚ) / ((hop_length : ℕ) : ℚ)⌉) ∧
    (AudioPreprocessor.forward ((hop_length : ℕ) : ℚ) get_features input_signal length).2
        = length.map (fun l => (((l + hop_length - 1) / hop_length : ℕ) : ℤ)) := by
  have h1 : (AudioPreprocessor.forward ((hop_length : ℕ) : ℚ) get_features input_signal
      length).2 = length.map (fun l => ⌈((l : ℕ) : ℚ) / ((hop_length : ℕ) : ℚ)⌉) := by
    unfold AudioPreprocessor.forward get_seq_len
    rw [List.map_map]
    rfl
  refine ⟨h1, ?_⟩
  rw [h1]
  have hfun : (fun l : ℕ => ⌈((l : ℕ) : ℚ) / ((hop_length : ℕ) : ℚ)⌉)
      = fun l : ℕ => (((l + hop_length - 1) / hop_length : ℕ) : ℤ) :=
    funext (fun l => ceil_natCast_div l hop_length hpos)
  rw [hfun]

/-- Witness for C1 at `hop_length = 160` and lengths `[16000, 8001]`. -/
theorem claim_c1_witness :
    0 < 160 ∧
    (AudioPreprocessor.forward ((160 : ℕ) : ℚ) (fun _ _ => (0 : ℕ)) [] [16000, 8001]).2
      = [100, 51] := by
  constructor
  · decide
  · have h := (claim_c1 (fun _ _ => (0 : ℕ)) [] 160 (by decide) [16000, 8001]).2
    rw [h]
    rfl

/-- Claim C2: for a fixed positive hop size, the per-item output length
`ceil(length / hop)` computed by `get_seq_len` is monotone non-decreasing in
the valid length. -/
theorem claim_c2 (hop_length l1 l2 : ℚ) (hpos : 0 < hop_length) (hle : l1 ≤ l2) :
    seq_len_one hop_length l1 ≤ seq_len_one hop_length l2 := by
  unfold seq_len_one
  exact Int.ceil_le_ceil (div_le_div_of_nonneg_right hle hpos.le)

/-- Witness for C2 at hop `160` and lengths `100 ≤ 8001`. -/
theorem claim_c2_witness :
    (0 : ℚ) < 160 ∧ (100 : ℚ) ≤ 8001 ∧ seq_len_one 160 100 ≤ seq_len_one 160 8001 :=
  ⟨by norm_num, by norm_num, claim_c2 160 100 8001 (by norm_num) (by norm_num)⟩

/-- Claim C3: giving both a (truthy) duration-based and a (truthy)
sample-count-based window size, or both for the stride, makes the constructor
of `AudioToMelSpectrogramPreprocessor` raise a `ValueError`; when at most one
of each pair is set the constructor succeeds with respect to these checks. -/
theorem claim_c3 (sample_rate : ℕ) (window_size window_stride : Option ℚ)
    (n_window_size n_window_stride : Option ℤ) :
    (truthyQ window_size = true → truthyZ n_window_size = true →
      ∃ e, audioToMelInit sample_rate window_size window_stride
        n_window_size n_window_stride = Except.error e) ∧
    (truthyQ window_stride = true → truthyZ n_window_stride = true →
      ∃ e, audioToMelInit sample_rate window_size window_stride
        n_window_size n_window_stride = Except.error e) ∧
    ((window_size = none ∨ n_window_size = none) →
      (window_stride = none ∨ n_window_stride = none) →
      ∃ p, audioToMelInit sample_rate window_size window_stride
        n_window_size n_window_stride = Except.ok p) := by
  refine ⟨?_, ?_, ?_⟩
  · intro h1 h2
    refine ⟨"received both window_size and n_window_size. Only one should be specified.", ?_⟩
    unfold audioToMelInit
    rw [h1, h2]
    rfl
  · intro h1 h2
    by_cases hs : (truthyQ window_size && truthyZ n_window_size) = true
    · refine ⟨"received both window_size and n_window_size. Only one should be specified.", ?_⟩
      unfold audioToMelInit
      rw [hs]
      rfl
    · refine ⟨"received both window_stride and n_window_stride. Only one should be specified.", ?_⟩
      rw [Bool.not_eq_true] at hs
      unfold audioToMelInit
      rw [hs, h1, h2]
      rfl
  · intro h1 h2
    have hs : (truthyQ window_size && truthyZ n_window_size) = false := by
      rcases h1 with h | h <;> simp [h, truthyQ, truthyZ]
    have ht : (truthyQ window_stride && truthyZ n_window_stride) = false := by
      rcases h2 with h | h <;> simp [h, truthyQ, truthyZ]
    rcases hcase : audioToMelInit sample_rate window_size window_stride
        n_window_size n_window_stride with e | p
    · exfalso
      unfold audioToMelInit at hcase
      rw [hs, ht] at hcase
      simp at hcase
    · exact ⟨p, rfl⟩

/-- Witness for C3: both window sizes given (the defaults plus `n_window_size
= 320`) raise the error; the default duration-only configuration succeeds. -/
theorem claim_c3_witness :
    truthyQ default_window_size = true ∧ truthyZ (some 320) = true ∧
    (∃ e, audioToMelInit 16000 default_window_size default_window_stride
      (some 320) none = Except.error e) ∧
    (∃ p, audioToMelInit 16000 default_window_size default_window_stride
      none none = Except.ok p) := by
  have hq : truthyQ default_window_size = true := by
    norm_num [truthyQ, default_window_size]
  have hz : truthyZ (some 320) = true := by decide
  exact ⟨hq, hz,
    (claim_c3 16000 default_window_size default_window_stride (some 320) none).1 hq hz,
    (claim_c3 16000 default_window_size default_window_stride none none).2.2
      (Or.inr rfl) (Or.inr rfl)⟩

/-- Zeroing masks commute: applying two zeroing masks in either order gives
the same tensor, because a zeroed element stays zero. -/
lemma applyMask_comm (P Q : ℕ → ℕ → ℕ → Bool) (x : Tensor) :
    applyMask P (applyMask Q x) = applyMask Q (applyMask P x) := by
  funext b f t
  unfold applyMask
  cases hP : P b f t <;> cases hQ : Q b f t <;> simp [hP, hQ]

/-- Claim C4: with `freq_masks + time_masks == 0` the band-masking stage built
by the `SpectrogramAugmentation` constructor is the identity function, with
`rect_masks == 0` the cutout stage is the identity function, and with all
counts zero `forward` returns its input unchanged. -/
theorem claim_c4 (B C T freq_masks time_masks freq_width time_width rect_masks
    rect_time rect_freq : ℕ) (rng : ℕ → ℕ) :
    (freq_masks + time_masks = 0 →
      (spectrogramAugmentationInit B C T freq_masks time_masks freq_width time_width
        rect_masks rect_time rect_freq rng).spec_augment = fun x => x) ∧
    (rect_masks = 0 →
      (spectrogramAugmentationInit B C T freq_masks time_masks freq_width time_width
        rect_masks rect_time rect_freq rng).spec_cutout = fun x => x) ∧
    (freq_masks + time_masks = 0 → rect_masks = 0 →
      ∀ x : Tensor,
        (spectrogramAugmentationInit B C T freq_masks time_masks freq_width time_width
          rect_masks rect_time rect_freq rng).forward x = x) := by
  refine ⟨?_, ?_, ?_⟩
  · intro h
    simp [spectrogramAugmentationInit, h]
  · intro h
    simp [spectrogramAugmentationInit, h]
  · intro h1 h2 x
    simp [SpectrogramAugmentation.forward, spectrogramAugmentationInit, h1, h2]

/-- Witness for C4 with a concrete all-zero configuration and a concrete
constant spectrogram. -/
theorem claim_c4_witness :
    0 + 0 = 0 ∧
    ((spectrogramAugmentationInit 2 3 4 0 0 10 10 0 5 20 (fun _ => 0)).spec_augment
      = fun x => x) ∧
    ((spectrogramAugmentationInit 2 3 4 0 0 10 10 0 5 20 (fun _ => 0)).spec_cutout
      = fun x => x) ∧
    (spectrogramAugmentationInit 2 3 4 0 0 10 10 0 5 20 (fun _ => 0)).forward
      (fun _ _ _ => 1) = fun _ _ _ => 1 := by
  have h := claim_c4 2 3 4 0 0 10 10 0 5 20 (fun _ => 0)
  exact ⟨rfl, h.1 rfl, h.2.1 rfl, h.2.2 rfl rfl (fun _ _ _ => 1)⟩

/-- Claim C5: the method `SpectrogramAugmentation.forward` applies the cutout stage
first and the band-masking stage second; zeroing masks commute, so for any
fixed drawn masks the two composition orders agree, and in particular the two
stages of any constructed `SpectrogramAugmentation` commute on every input. -/
theorem claim_c5 :
    (∀ (s : SpectrogramAugmentation) (x : Tensor),
      s.forward x = s.spec_augment (s.spec_cutout x)) ∧
    (∀ (P Q : ℕ → ℕ → ℕ → Bool) (x : Tensor),
      applyMask P (applyMask Q x) = applyMask Q (applyMask P x)) ∧
    (∀ (B C T freq_masks time_masks freq_width time_width rect_masks
        rect_time rect_freq : ℕ) (rng : ℕ → ℕ) (x : Tensor),
      (spectrogramAugmentationInit B C T freq_masks time_masks freq_width time_width
          rect_masks rect_time rect_freq rng).spec_augment
        ((spectrogramAugmentationInit B C T freq_masks time_masks freq_width time_width
          rect_masks rect_time rect_freq rng).spec_cutout x)
      = (spectrogramAugmentationInit B C T freq_masks time_masks freq_width time_width
          rect_masks rect_time rect_freq rng).spec_cutout
        ((spectrogramAugmentationInit B C T freq_masks time_masks freq_width time_width
          rect_masks rect_time rect_freq rng).spec_augment x)) := by
  refine ⟨fun s x => rfl, applyMask_comm, ?_⟩
  intro B C T freq_masks time_masks freq_width time_width rect_masks rect_time
    rect_freq rng x
  by_cases h1 : rect_masks > 0 <;> by_cases h2 : freq_masks + time_masks > 0 <;>
    simp only [spectrogramAugmentationInit, h1, h2, if_true, if_false, ite_true,
      ite_false, specCutoutFn, specAugmentFn, applyMask_comm]

/-- Claim C8: two runs of the feature-extraction forward pass with the same
configuration, batch, lengths and noise stream produce identical outputs, and
two runs of `SpectrogramAugmentation.forward` with identical RNG state produce
identical outputs. -/
theorem claim_c8 :
    (∀ (spectral : List ℚ → List (List ℚ)) (dither : ℚ) (preemph : Option ℚ)
        (noise1 noise2 : ℕ → ℚ) (hop_length : ℚ) (input_signal : List (List ℚ))
        (length : List ℕ),
      (∀ i, noise1 i = noise2 i) →
      AudioPreprocessor.forward hop_length
          (get_features_model spectral dither preemph noise1) input_signal length
        = AudioPreprocessor.forward hop_length
          (get_features_model spectral dither preemph noise2) input_signal length) ∧
    (∀ (B C T freq_masks time_masks freq_width time_width rect_masks
        rect_time rect_freq : ℕ) (rng1 rng2 : ℕ → ℕ) (x : Tensor),
      (∀ i, rng1 i = rng2 i) →
      (spectrogramAugmentationInit B C T freq_masks time_masks freq_width time_width
          rect_masks rect_time rect_freq rng1).forward x
        = (spectrogramAugmentationInit B C T freq_masks time_masks freq_width time_width
          rect_masks rect_time rect_freq rng2).forward x) := by
  constructor
  · intro spectral dither preemph noise1 noise2 hop_length input_signal length h
    have : noise1 = noise2 := funext h
    rw [this]
  · intro B C T freq_masks time_masks freq_width time_width rect_masks rect_time
      rect_freq rng1 rng2 x h
    have : rng1 = rng2 := funext h
    rw [this]

/-- Witness for C8 with concrete equal noise and RNG streams. -/
theorem claim_c8_witness :
    (∀ i : ℕ, (fun _ : ℕ => (0 : ℚ)) i = (fun _ : ℕ => (0 : ℚ)) i) ∧
    AudioPreprocessor.forward 160
        (get_features_model (fun _ => []) (1 / 100000) (some (97 / 100))
          (fun _ => 0)) [[1, 2]] [2]
      = AudioPreprocessor.forward 160
        (get_features_model (fun _ => []) (1 / 100000) (some (97 / 100))
          (fun _ => 0)) [[1, 2]] [2] ∧
    (∀ i : ℕ, (fun _ : ℕ => (5 : ℕ)) i = (fun _ : ℕ => (5 : ℕ)) i) ∧
    (spectrogramAugmentationInit 1 3 4 1 1 2 2 1 2 2 (fun _ => 5)).forward
        (fun _ _ _ => 1)
      = (spectrogramAugmentationInit 1 3 4 1 1 2 2 1 2 2 (fun _ => 5)).forward
        (fun _ _ _ => 1) :=
  ⟨fun _ => rfl,
    (claim_c8.1 (fun _ => []) (1 / 100000) (some (97 / 100)) (fun _ => 0)
      (fun _ => 0) 160 [[1, 2]] [2] (fun _ => rfl)),
    fun _ => rfl,
    (claim_c8.2 1 3 4 1 1 2 2 1 2 2 (fun _ => 5) (fun _ => 5) (fun _ _ _ => 1)
      (fun _ => rfl))⟩

/-- Claim C6: the window table maps each of the names `hann`, `hamming`,
`blackman`, `bartlett` to the generator of the standard analytic formula of
that window and the `None` name to the all-ones generator, every generator
returns a vector of the requested length, and an unknown name produces a
configuration error when the table is consulted at construction time. -/
theorem claim_c6 :
    torch_windows (some "hann") = some hann_window ∧
    torch_windows (some "hamming") = some hamming_window ∧
    torch_windows (some "blackman") = some blackman_window ∧
    torch_windows (some "bartlett") = some bartlett_window ∧
    torch_windows none = some ones_window ∧
    (∀ L, ones_window L = List.replicate L 1 ∧ (ones_window L).length = L) ∧
    (∀ L, (hann_window L).length = L ∧ (hamming_window L).length = L ∧
      (blackman_window L).length = L ∧ (bartlett_window L).length = L) ∧
    (∀ s : String, s ∉ ["hann", "hamming", "blackman", "bartlett", "ones"] →
      ∃ e, window_check (some s) = Except.error e) := by
  refine ⟨rfl, rfl, rfl, rfl, rfl, ?_, ?_, ?_⟩
  · intro L
    exact ⟨rfl, by simp [ones_window]⟩
  · intro L
    refine ⟨?_, ?_, ?_, ?_⟩ <;>
      simp [hann_window, hamming_window, blackman_window, bartlett_window]
  · intro s hs
    simp only [List.mem_cons, List.not_mem_nil, or_false, not_or] at hs
    obtain ⟨h1, h2, h3, h4, h5⟩ := hs
    have ht : torch_windows (some s) = none := by
      simp only [torch_windows, h1, h2, h3, h4, h5, if_false]
    refine ⟨"unknown window name", ?_⟩
    unfold window_check
    rw [ht]

/-- Witness for C6 at the unknown window name `fancy`. -/
theorem claim_c6_witness :
    ("fancy" : String) ∉ ["hann", "hamming", "blackman", "bartlett", "ones"] ∧
    ∃ e, window_check (some "fancy") = Except.error e := by
  have hm : ("fancy" : String) ∉ ["hann", "hamming", "blackman", "bartlett", "ones"] := by
    decide
  exact ⟨hm, claim_c6.2.2.2.2.2.2.2 "fancy" hm⟩

/-- Claim C7: with `sample_rate = 16000` and the default durations
`window_size = 0.02` and `window_stride = 0.01` (no sample-count arguments),
construction succeeds with `n_window_size = int(0.02 * 16000) = 320` and
`n_window_stride = int(0.01 * 16000) = 160`, and the output length for an item
of valid length `16000` is `ceil(16000 / 160) = 100` frames. -/
theorem claim_c7 :
    ∃ p, audioToMelInit 16000 default_window_size default_window_stride none none
        = Except.ok p ∧
      p.feat_n_window_size = some 320 ∧ p.feat_n_window_stride = some 160 ∧
      p.get_seq_len 16000 = 100 := by
  refine ⟨{ sample_rate := 16000, win_length := none, hop_length := none,
            feat_n_window_size := some 320, feat_n_window_stride := some 160 },
    ?_, rfl, rfl, ?_⟩
  · unfold audioToMelInit default_window_size default_window_stride
    norm_num [truthyQ, truthyZ, pyInt]
  · unfold AudioToMelSpectrogramPreprocessor.get_seq_len filterbank_get_seq_len
    norm_num

/-- Claim C9: the defaults `window_size = 0.02` and `window_stride = 0.01` are
truthy, so passing only a nonzero `n_window_size` (or only a nonzero
`n_window_stride`) with everything else at its default raises the
`ValueError`; passing `window_size = None` (respectively
`window_stride = None`) alongside the sample count makes construction succeed
and the sample count is used as given. -/
theorem claim_c9 (k : ℤ) (hk : k ≠ 0) :
    (∃ e, audioToMelInit default_sample_rate default_window_size default_window_stride
      (some k) none = Except.error e) ∧
    (∃ e, audioToMelInit default_sample_rate default_window_size default_window_stride
      none (some k) = Except.error e) ∧
    (∃ p, audioToMelInit default_sample_rate none default_window_stride (some k) none
        = Except.ok p ∧ p.feat_n_window_size = some k) ∧
    (∃ p, audioToMelInit default_sample_rate default_window_size none none (some k)
        = Except.ok p ∧ p.feat_n_window_stride = some k) := by
  have hq : truthyQ default_window_size = true := by
    norm_num [truthyQ, default_window_size]
  have hq2 : truthyQ default_window_stride = true := by
    norm_num [truthyQ, default_window_stride]
  have hz : truthyZ (some k) = true := by simp [truthyZ, hk]
  refine ⟨?_, ?_, ?_, ?_⟩
  · refine ⟨"received both window_size and n_window_size. Only one should be specified.", ?_⟩
    unfold audioToMelInit
    rw [hq, hz]
    rfl
  · refine ⟨"received both window_stride and n_window_stride. Only one should be specified.", ?_⟩
    unfold audioToMelInit
    rw [hq, hq2, hz]
    rfl
  · refine ⟨{ sample_rate := default_sample_rate, win_length := some k, hop_length := none,
              feat_n_window_size := some k, feat_n_window_stride := some 160 }, ?_, rfl⟩
    unfold audioToMelInit
    norm_num [truthyQ, truthyZ, pyInt, default_window_stride, default_sample_rate]
  · refine ⟨{ sample_rate := default_sample_rate, win_length := none, hop_length := some k,
              feat_n_window_size := some 320, feat_n_window_stride := some k }, ?_, rfl⟩
    unfold audioToMelInit
    norm_num [truthyQ, truthyZ, pyInt, default_window_size, default_sample_rate]

/-- Witness for C9 at the sample count `512`. -/
theorem claim_c9_witness :
    (512 : ℤ) ≠ 0 ∧
    ∃ e, audioToMelInit default_sample_rate default_window_size default_window_stride
      (some 512) none = Except.error e := by
  have h := claim_c9 512 (by decide)
  exact ⟨by decide, h.1⟩

/-- Claim C10: the both-given check uses truthiness, so a zero duration
together with a sample-count value raises no error, the zero duration is not
converted to samples, and the given sample count is passed on as-is. -/
theorem claim_c10 (k : ℤ) :
    (∃ p, audioToMelInit default_sample_rate (some 0) default_window_stride
        (some k) none = Except.ok p ∧
      p.feat_n_window_size = some k) ∧
    (∃ p, audioToMelInit default_sample_rate default_window_size (some 0)
        none (some k) = Except.ok p ∧
      p.feat_n_window_stride = some k) := by
  constructor
  · refine ⟨{ sample_rate := default_sample_rate, win_length := some k, hop_length := none,
              feat_n_window_size := some k, feat_n_window_stride := some 160 }, ?_, rfl⟩
    unfold audioToMelInit
    norm_num [truthyQ, truthyZ, pyInt, default_window_stride, default_sample_rate]
  · refine ⟨{ sample_rate := default_sample_rate, win_length := none, hop_length := some k,
              feat_n_window_size := some 320, feat_n_window_stride := some k }, ?_, rfl⟩
    unfold audioToMelInit
    norm_num [truthyQ, truthyZ, pyInt, default_window_size, default_sample_rate]

end NeMoAudio
